import Mathlib

/-!
Verification development for `convert_celeba.py` (LS4GAN/celeba4cyclegan).

The script joins two CelebA metadata tables (partition assignment and a
signed-integer attribute matrix), validates the requested attribute name and
the on-disk image listing against the joined table, computes attribute-sign x
partition split buckets, and copies images into one output subdirectory per
bucket.

Shallow embedding notes:
* A pandas frame row is a `Row` (stem, partition code, attribute cells).
  Attribute cells are `Option Int`: `none` models a NaN produced by a left
  join miss; in pandas both `NaN > 0` and `NaN <= 0` evaluate to false, which
  is what `attrGtZeroB` / `attrLeZeroB` encode.  A lookup of a column name
  that is not present raises `KeyError` in pandas; theorems about attribute
  columns therefore carry explicit validity hypotheses.
* Vectorised mask expressions (`specs[attr] > 0`, `&`, boolean indexing) are
  embedded as `List Bool` series plus `maskSelect`, mirroring the source
  expressions shape for shape.
* Assertions and raised exceptions become `Except CelebaError` values.
* The filesystem is a flat set of existing paths (`FS`); directory creation
  and file copy insert paths.  `shutil.copy` of a bucket entry is modelled as
  insertion of the destination path (the spec leaves I/O failures during
  copying outside the eager-check guarantees).  Worker-pool completion order
  is not modelled: the set of created paths is order independent.
-/

/-- `PARTITIONS` dict from the source: partition name to code. -/
def PARTITIONS : List (String × Int) := [("train", 0), ("val", 1), ("test", 2)]

/-- Reserved partition column name. -/
def PART_COL : String := "partition"

/-- Extension of the on-disk aligned CelebA images. -/
def FILE_EXT : String := ".png"

/-- Extension used by the metadata index entries. -/
def INDEX_EXT : String := ".jpg"

/-- One row of the joined metadata table: index stem, partition code, and the
attribute cells (a `none` cell models NaN from a left-join miss). -/
structure Row where
  stem : String
  part : Int
  attrs : List (String × Option Int)
  deriving Repr, DecidableEq

/-- The joined metadata table: column names (the partition column plus the
attribute columns) and the rows in table order. -/
structure Table where
  columns : List String
  rows : List Row
  deriving Repr, DecidableEq

/-- The table index (`specs.index`): the list of row stems in order. -/
def Table.index (t : Table) : List String := t.rows.map Row.stem

/-- Value of attribute column `attr` in row `r`; a column absent from the row
behaves like a NaN cell (pandas would raise `KeyError`; every theorem that
depends on the cell carries a presence hypothesis). -/
def attrVal (r : Row) (attr : String) : Option Int :=
  (r.attrs.lookup attr).getD none

/-- Cell comparison `specs[attr] > 0` at one row; NaN compares false. -/
def attrGtZeroB (r : Row) (attr : String) : Bool :=
  match attrVal r attr with
  | some v => decide (0 < v)
  | none => false

/-- Cell comparison `specs[attr] <= 0` at one row; NaN compares false. -/
def attrLeZeroB (r : Row) (attr : String) : Bool :=
  match attrVal r attr with
  | some v => decide (v ≤ 0)
  | none => false

/-- Boolean series `specs[PART_COL] == code`. -/
def seriesPartEq (t : Table) (code : Int) : List Bool :=
  t.rows.map (fun r => r.part == code)

/-- Boolean series `specs[attr] > 0`. -/
def seriesAttrGt (t : Table) (attr : String) : List Bool :=
  t.rows.map (fun r => attrGtZeroB r attr)

/-- Boolean series `specs[attr] <= 0`. -/
def seriesAttrLe (t : Table) (attr : String) : List Bool :=
  t.rows.map (fun r => attrLeZeroB r attr)

/-- Elementwise `&` of two boolean series. -/
def seriesAnd (a b : List Bool) : List Bool := List.zipWith and a b

/-- Boolean-mask row selection, `specs[mask]`. -/
def maskSelect : List Row → List Bool → List Row
  | [], _ => []
  | _ :: _, [] => []
  | r :: rs, b :: bs => if b then r :: maskSelect rs bs else maskSelect rs bs

/-- `prepare_single_split(specs, attr, partition)` from the source: selects the
stems with positive attribute value (class A) and non-positive attribute value
(class B) within the named partition.  Indexing `PARTITIONS[partition]` is a
dict lookup; every call site uses one of the three valid names, which the
theorems assume via `PARTITIONS.lookup partition = some pcode`. -/
def prepare_single_split (specs : Table) (attr partitionName : String) :
    List String × List String :=
  let pcode := (PARTITIONS.lookup partitionName).getD 0
  let part_mask := seriesPartEq specs pcode
  let mask_a := seriesAnd (seriesAttrGt specs attr) part_mask
  let mask_b := seriesAnd (seriesAttrLe specs attr) part_mask
  ((maskSelect specs.rows mask_a).map Row.stem,
   (maskSelect specs.rows mask_b).map Row.stem)

/-- `prepare_image_split(specs, attr, separate_val)`: the bucket dictionary,
modelled as an association list in Python dict insertion order. -/
def prepare_image_split (specs : Table) (attr : String) (separate_val : Bool) :
    List (String × List String) :=
  let train := prepare_single_split specs attr "train"
  let val := prepare_single_split specs attr "val"
  let test := prepare_single_split specs attr "test"
  if separate_val then
    [("trainA", train.1), ("trainB", train.2),
     ("valA", val.1), ("valB", val.2),
     ("testA", test.1), ("testB", test.2)]
  else
    [("trainA", train.1), ("trainB", train.2),
     ("testA", test.1 ++ val.1), ("testB", test.2 ++ val.2)]

/-- Errors raised by the script (assertions, `ValueError`, `RuntimeError`,
`FileExistsError`), carrying the structured data of the message. -/
inductive CelebaError where
  | outdirErr (outdir : String)
  | partColMissing
  | unknownAttr (attr : String) (supported : List String)
  | countMismatch (nimages nspecs : Nat)
  | wrongExtension (image ext : String)
  | missingEntry (image entry : String)
  | splitCountMismatch
  | mkdirErr (path : String)
  deriving Repr, DecidableEq

/-- `validate_image_split(specs, split_dict)`: asserts that the bucket sizes
sum to the number of metadata rows. -/
def validate_image_split (specs : Table) (split : List (String × List String)) :
    Except CelebaError Unit :=
  let count := (split.map (fun p => p.2.length)).sum
  if specs.rows.length = count then .ok () else .error .splitCountMismatch

/-- Total size of a bucket dictionary. -/
def bucketLenSum (split : List (String × List String)) : Nat :=
  (split.map (fun p => p.2.length)).sum

/-- `validate_attr(specs, attr)`: `set(specs.columns)` minus the partition
column; `set.remove` raises `KeyError` when the partition column is absent
(never the case for a joined table), else an unknown attribute raises
`ValueError` listing the supported attribute names.  The Python value is a
set; the model keeps the filtered column list, which has the same members. -/
def validate_attr (specs : Table) (attr : String) : Except CelebaError Unit :=
  if PART_COL ∈ specs.columns then
    let attrs := specs.columns.filter (fun c => c ≠ PART_COL)
    if attr ∈ attrs then .ok () else .error (.unknownAttr attr attrs)
  else .error .partColMissing

/-- Index of the last dot of a character list, if any. -/
def lastDotIndex (cs : List Char) : Option Nat :=
  (List.range cs.length).foldl
    (fun acc i => if cs.getD i ' ' = '.' then some i else acc) none

/-- Models `os.path.splitext` for plain filenames (no directory separators):
splits at the last dot unless every character before that dot is itself a dot
(leading dots do not start an extension). -/
def splitext (p : String) : String × String :=
  let cs := p.toList
  match lastDotIndex cs with
  | none => (p, "")
  | some d =>
    if (cs.take d).any (fun c => c != '.') then
      (String.mk (cs.take d), String.mk (cs.drop d))
    else (p, "")

/-- One image passes `validate_images` checks: extension is `FILE_EXT` and the
stem with `INDEX_EXT` substituted is present in the table index. -/
def imageOK (specs : Table) (image : String) : Bool :=
  ((splitext image).2 == FILE_EXT)
    && specs.index.contains ((splitext image).1 ++ INDEX_EXT)

/-- The per-image loop of `validate_images`: first failing image raises. -/
def validate_images_loop (specs : Table) : List String → Except CelebaError Unit
  | [] => .ok ()
  | image :: rest =>
    let base := (splitext image).1
    let ext := (splitext image).2
    if ext ≠ FILE_EXT then .error (.wrongExtension image ext)
    else
      let entry_index := base ++ INDEX_EXT
      if specs.index.contains entry_index then validate_images_loop specs rest
      else .error (.missingEntry image entry_index)

/-- `validate_images(images, specs)`: count check, then the per-image loop. -/
def validate_images (images : List String) (specs : Table) :
    Except CelebaError Unit :=
  if images.length ≠ specs.rows.length then
    .error (.countMismatch images.length specs.rows.length)
  else validate_images_loop specs images

/-- The attribute frame `df_attrs` as parsed by `load_celeba_attrs`: header
column names, and per stem the integer attribute values in column order. -/
structure AttrFrame where
  columns : List String
  rows : List (String × List Int)
  deriving Repr, DecidableEq

/-- One row of `df_partition.join(df_attrs)`: a stem found in the attribute
frame receives its integer cells; a stem absent from it receives a NaN cell
(`none`) in every attribute column, as pandas left join does. -/
def joinRow (dfAttrs : AttrFrame) (stem : String) (p : Int) : Row :=
  match dfAttrs.rows.lookup stem with
  | some vals => ⟨stem, p, dfAttrs.columns.zip (vals.map some)⟩
  | none => ⟨stem, p, dfAttrs.columns.map (fun c => (c, (none : Option Int)))⟩

/-- `load_celeba_specs(path_attr, path_part)` after the two `read_csv` calls:
`df_partition.join(df_attrs)` with the pandas default `how=left`, keyed by the
partition frame index in its order.  A left join never fails on key
misalignment: partition stems missing from the attribute frame produce NaN
cells, and attribute stems missing from the partition frame are dropped.
(The only join failure mode, overlapping column names, cannot involve the
key sets; CelebA attribute names never collide with `partition`.) -/
def load_celeba_specs (dfAttrs : AttrFrame) (dfPart : List (String × Int)) :
    Table :=
  ⟨PART_COL :: dfAttrs.columns,
   dfPart.map (fun sp => joinRow dfAttrs sp.1 sp.2)⟩

/-- The filesystem as the flat set of existing paths. -/
abbrev FS := List String

/-- `os.path.exists`. -/
def pathExists (fs : FS) (p : String) : Bool := fs.contains p

/-- `os.path.join` for the two-component uses in the script. -/
def joinPath (a b : String) : String := a ++ "/" ++ b

/-- `os.makedirs(p, exist_ok=True)`. -/
def makedirs (fs : FS) (p : String) : FS :=
  if pathExists fs p then fs else p :: fs

/-- The `os.mkdir` loop of `prepare_outdir`: creates one subdirectory per
bucket name, raising `FileExistsError` (and leaving the directories already
made) if a path exists. -/
def mkdirAll (outdir : String) : List String → FS → FS × Option CelebaError
  | [], fs => (fs, none)
  | n :: ns, fs =>
    let p := joinPath outdir n
    if pathExists fs p then (fs, some (.mkdirErr p))
    else mkdirAll outdir ns (p :: fs)

/-- `prepare_outdir(outdir, split_dict)`: `makedirs` on the root, then one
`mkdir` per bucket name. -/
def prepare_outdir (fs : FS) (outdir : String) (names : List String) :
    FS × Option CelebaError :=
  mkdirAll outdir names (makedirs fs outdir)

/-- `CopyWorker.__call__` on one index entry: the copy creates
`dst/<base><FILE_EXT>` where `base` is the entry with its extension split off. -/
def copyBucket (dstRoot : String) : List String → FS → FS
  | [], fs => fs
  | idx :: rest, fs =>
    copyBucket dstRoot rest (joinPath dstRoot ((splitext idx).1 ++ FILE_EXT) :: fs)

/-- `split_images`: per bucket, copy every file into the bucket directory. -/
def split_images (outdir : String) : List (String × List String) → FS → FS
  | [], fs => fs
  | (name, files) :: rest, fs =>
    split_images outdir rest (copyBucket (joinPath outdir name) files fs)

/-- Insertion of a string into a sorted list, for `sorted(...)`. -/
def insertSorted (x : String) : List String → List String
  | [] => [x]
  | y :: ys => if x ≤ y then x :: y :: ys else y :: insertSorted x ys

/-- `collect_celeba_images`: `sorted(os.listdir(root))`, where the raw listing
is part of the environment. -/
def collect_celeba_images (listing : List String) : List String :=
  listing.foldr insertSorted []

/-- The inputs of one run of `main`: the parsed command-line arguments and the
parsed contents of the metadata files and the image directory listing. -/
structure Env where
  dfAttrs : AttrFrame
  dfPart : List (String × Int)
  attr : String
  separate_val : Bool
  listing : List String
  outdir : String
  deriving Repr, DecidableEq

/-- `main()`: the guard on the output directory, the load and validation
chain, split computation and check, then directory creation and the copy
fan-out.  The pair carries the filesystem after the run and the outcome. -/
def mainRun (env : Env) (fs : FS) : FS × Except CelebaError Unit :=
  if pathExists fs env.outdir then (fs, .error (.outdirErr env.outdir))
  else
    let specs := load_celeba_specs env.dfAttrs env.dfPart
    match validate_attr specs env.attr with
    | .error e => (fs, .error e)
    | .ok _ =>
      let images := collect_celeba_images env.listing
      match validate_images images specs with
      | .error e => (fs, .error e)
      | .ok _ =>
        let split := prepare_image_split specs env.attr env.separate_val
        match validate_image_split specs split with
        | .error e => (fs, .error e)
        | .ok _ =>
          match prepare_outdir fs env.outdir (split.map Prod.fst) with
          | (fs1, some e) => (fs1, .error e)
          | (fs1, none) => (split_images env.outdir split fs1, .ok ())

/-- The precondition and data-integrity error kinds of the spec: everything
the script can raise before `prepare_outdir` starts mutating the tree. -/
def CelebaError.isEager : CelebaError → Bool
  | .mkdirErr _ => false
  | _ => true

/-! ### Basic lemmas about the vectorised mask operations -/

/-- Row-level form of the class-A mask `(specs[attr] > 0) & part_mask`. -/
def rowMaskA (attr : String) (pcode : Int) (r : Row) : Bool :=
  attrGtZeroB r attr && (r.part == pcode)

/-- Row-level form of the class-B mask `(specs[attr] <= 0) & part_mask`. -/
def rowMaskB (attr : String) (pcode : Int) (r : Row) : Bool :=
  attrLeZeroB r attr && (r.part == pcode)

lemma seriesAnd_map_map (l : List Row) (p q : Row → Bool) :
    seriesAnd (l.map p) (l.map q) = l.map (fun r => p r && q r) := by
  induction l with
  | nil => rfl
  | cons r rs ih =>
    simp only [seriesAnd, List.map_cons, List.zipWith_cons_cons] at ih ⊢
    rw [ih]

lemma maskSelect_map_eq_filter (l : List Row) (p : Row → Bool) :
    maskSelect l (l.map p) = l.filter p := by
  induction l with
  | nil => rfl
  | cons r rs ih =>
    by_cases h : p r <;> simp [maskSelect, h, ih, List.filter_cons]

lemma prepare_single_split_eq_filter (t : Table) (attr partitionName : String)
    (pcode : Int) (h : PARTITIONS.lookup partitionName = some pcode) :
    prepare_single_split t attr partitionName
      = ((t.rows.filter (rowMaskA attr pcode)).map Row.stem,
         (t.rows.filter (rowMaskB attr pcode)).map Row.stem) := by
  simp only [prepare_single_split, h, Option.getD_some, seriesAttrGt, seriesAttrLe,
    seriesPartEq, seriesAnd_map_map, maskSelect_map_eq_filter]
  rfl

lemma attrGtZeroB_iff (r : Row) (attr : String) :
    attrGtZeroB r attr = true ↔ ∃ v, attrVal r attr = some v ∧ 0 < v := by
  unfold attrGtZeroB
  cases h : attrVal r attr <;> simp

lemma attrLeZeroB_iff (r : Row) (attr : String) :
    attrLeZeroB r attr = true ↔ ∃ v, attrVal r attr = some v ∧ v ≤ 0 := by
  unfold attrLeZeroB
  cases h : attrVal r attr <;> simp

/-! ### C6: bucket names -/

/-- Claim C6: for every metadata table and attribute, `prepare_image_split`
with `separate_val = false` yields exactly the four bucket names `trainA`,
`trainB`, `testA`, `testB`, in dict insertion order; with
`separate_val = true` it yields exactly the six names with `valA` and `valB`
kept separate. -/
theorem claim_C6 (t : Table) (attr : String) :
    (prepare_image_split t attr false).map Prod.fst
      = ["trainA", "trainB", "testA", "testB"]
    ∧ (prepare_image_split t attr true).map Prod.fst
      = ["trainA", "trainB", "valA", "valB", "testA", "testB"] :=
  ⟨rfl, rfl⟩

/-! ### C5: merged-mode test buckets are test ++ val -/

/-- Claim C5: with `separate_val = false`, the `testA` bucket is exactly the
test-partition class-A list concatenated with the val-partition class-A list
(every test item strictly precedes every val item, positions preserved), and
likewise for `testB`. -/
theorem claim_C5 (t : Table) (attr : String) :
    ((prepare_image_split t attr false).lookup "testA"
      = some ((prepare_single_split t attr "test").1
          ++ (prepare_single_split t attr "val").1))
    ∧ ((prepare_image_split t attr false).lookup "testB"
      = some ((prepare_single_split t attr "test").2
          ++ (prepare_single_split t attr "val").2))
    ∧ (∀ i, i < (prepare_single_split t attr "test").1.length →
        ((prepare_single_split t attr "test").1
            ++ (prepare_single_split t attr "val").1)[i]?
          = (prepare_single_split t attr "test").1[i]?)
    ∧ (∀ j, ((prepare_single_split t attr "test").1
            ++ (prepare_single_split t attr "val").1)[
              (prepare_single_split t attr "test").1.length + j]?
          = (prepare_single_split t attr "val").1[j]?)
    ∧ (∀ i, i < (prepare_single_split t attr "test").2.length →
        ((prepare_single_split t attr "test").2
            ++ (prepare_single_split t attr "val").2)[i]?
          = (prepare_single_split t attr "test").2[i]?)
    ∧ (∀ j, ((prepare_single_split t attr "test").2
            ++ (prepare_single_split t attr "val").2)[
              (prepare_single_split t attr "test").2.length + j]?
          = (prepare_single_split t attr "val").2[j]?) := by
  refine ⟨rfl, rfl, ?_, ?_, ?_, ?_⟩
  · intro i h
    exact List.getElem?_append_left h
  · intro j
    rw [List.getElem?_append_right (Nat.le_add_right _ _)]
    congr 1
    omega
  · intro i h
    exact List.getElem?_append_left h
  · intro j
    rw [List.getElem?_append_right (Nat.le_add_right _ _)]
    congr 1
    omega

/-! ### C1: prepare_single_split selects by attribute sign and partition -/

/-- Claim C1: for a partition name in {train, val, test} (code `pcode`),
`prepare_single_split` returns, in table order, exactly the stems with
positive attribute value in that partition (class A) and exactly the stems
with non-positive attribute value in that partition (class B); an attribute
value of 0 is non-positive and goes to class B. -/
theorem claim_C1 (t : Table) (attr partitionName : String) (pcode : Int)
    (h : PARTITIONS.lookup partitionName = some pcode) :
    prepare_single_split t attr partitionName
      = ((t.rows.filter (rowMaskA attr pcode)).map Row.stem,
         (t.rows.filter (rowMaskB attr pcode)).map Row.stem)
    ∧ ∀ s : String,
      (s ∈ (prepare_single_split t attr partitionName).1 ↔
        ∃ r ∈ t.rows, r.stem = s ∧ (∃ v, attrVal r attr = some v ∧ 0 < v)
          ∧ r.part = pcode)
      ∧ (s ∈ (prepare_single_split t attr partitionName).2 ↔
        ∃ r ∈ t.rows, r.stem = s ∧ (∃ v, attrVal r attr = some v ∧ v ≤ 0)
          ∧ r.part = pcode) := by
  have he := prepare_single_split_eq_filter t attr partitionName pcode h
  refine ⟨he, fun s => ⟨?_, ?_⟩⟩
  · rw [he]
    simp only [List.mem_map, List.mem_filter, rowMaskA, Bool.and_eq_true,
      attrGtZeroB_iff, beq_iff_eq]
    aesop
  · rw [he]
    simp only [List.mem_map, List.mem_filter, rowMaskB, Bool.and_eq_true,
      attrLeZeroB_iff, beq_iff_eq]
    aesop

/-- The three-row train table of the spec example: attribute values 1, -1, 0. -/
def exTable3 : Table :=
  ⟨[PART_COL, "Attr"],
   [⟨"r1.jpg", 0, [("Attr", some 1)]⟩,
    ⟨"r2.jpg", 0, [("Attr", some (-1))]⟩,
    ⟨"r3.jpg", 0, [("Attr", some 0)]⟩]⟩

/-- Witness for C1: on the 3-row train table with attribute values 1, -1, 0,
the split yields trainA = [row1] and trainB = [row2, row3] (0 is class B). -/
theorem claim_C1_witness :
    PARTITIONS.lookup "train" = some 0
    ∧ prepare_single_split exTable3 "Attr" "train"
        = (["r1.jpg"], ["r2.jpg", "r3.jpg"]) :=
  ⟨rfl, ((claim_C1 exTable3 "Attr" "train" 0 rfl).1).trans rfl⟩

/-! ### Counting and permutation machinery for the bucket partition -/

/-- The six row masks of the split, in six-bucket insertion order. -/
def sixMasks (attr : String) : List (Row → Bool) :=
  [rowMaskA attr 0, rowMaskB attr 0, rowMaskA attr 1, rowMaskB attr 1,
   rowMaskA attr 2, rowMaskB attr 2]

/-- The six row masks in the order the merged-mode buckets concatenate them. -/
def mergedMasks (attr : String) : List (Row → Bool) :=
  [rowMaskA attr 0, rowMaskB attr 0, rowMaskA attr 2, rowMaskA attr 1,
   rowMaskB attr 2, rowMaskB attr 1]

/-- A row is coverable by the split: its attribute cell is an integer and its
partition code is one of the three valid codes. -/
def goodRow (attr : String) (r : Row) : Prop :=
  (attrVal r attr).isSome ∧ (r.part = 0 ∨ r.part = 1 ∨ r.part = 2)

instance (attr : String) (r : Row) : Decidable (goodRow attr r) := by
  unfold goodRow; infer_instance

lemma countP_sixMasks (attr : String) (r : Row) :
    (sixMasks attr).countP (fun p => p r)
      = if goodRow attr r then 1 else 0 := by
  cases h : attrVal r attr with
  | none =>
    simp [sixMasks, goodRow, rowMaskA, rowMaskB, attrGtZeroB, attrLeZeroB, h]
  | some v =>
    simp only [sixMasks, goodRow, List.countP_cons, List.countP_nil, rowMaskA,
      rowMaskB, Bool.and_eq_true, beq_iff_eq, attrGtZeroB, attrLeZeroB, h,
      Option.isSome_some, decide_eq_true_eq, true_and]
    split_ifs <;> omega

lemma countP_mergedMasks (attr : String) (r : Row) :
    (mergedMasks attr).countP (fun p => p r)
      = if goodRow attr r then 1 else 0 := by
  cases h : attrVal r attr with
  | none =>
    simp [mergedMasks, goodRow, rowMaskA, rowMaskB, attrGtZeroB, attrLeZeroB, h]
  | some v =>
    simp only [mergedMasks, goodRow, List.countP_cons, List.countP_nil, rowMaskA,
      rowMaskB, Bool.and_eq_true, beq_iff_eq, attrGtZeroB, attrLeZeroB, h,
      Option.isSome_some, decide_eq_true_eq, true_and]
    split_ifs <;> omega

lemma flatten_filters_nil (ps : List (Row → Bool)) :
    (ps.map (fun p => List.filter p ([] : List Row))).flatten = [] := by
  induction ps with
  | nil => rfl
  | cons q qs ih => simp only [List.map_cons, List.flatten_cons, List.filter_nil,
      List.nil_append]; exact ih

lemma flatten_filters_cons_zero {r : Row} {rs : List Row}
    (ps : List (Row → Bool)) (h : ps.countP (fun p => p r) = 0) :
    (ps.map (fun p => (r :: rs).filter p)).flatten
      = (ps.map (fun p => rs.filter p)).flatten := by
  induction ps with
  | nil => rfl
  | cons q qs ih =>
    rw [List.countP_cons] at h
    cases hq : q r with
    | true => rw [hq] at h; simp at h
    | false =>
      rw [hq] at h
      simp only [Bool.false_eq_true, if_false, Nat.add_zero] at h
      rw [List.map_cons, List.flatten_cons, List.map_cons, List.flatten_cons,
        List.filter_cons_of_neg (by simp [hq]), ih h]

lemma flatten_filters_cons_one {r : Row} {rs : List Row}
    (ps : List (Row → Bool)) (h : ps.countP (fun p => p r) = 1) :
    ((ps.map (fun p => (r :: rs).filter p)).flatten).Perm
      (r :: (ps.map (fun p => rs.filter p)).flatten) := by
  induction ps with
  | nil => simp at h
  | cons q qs ih =>
    rw [List.countP_cons] at h
    cases hq : q r with
    | true =>
      rw [hq] at h
      rw [if_pos rfl] at h
      have h0 : qs.countP (fun p => p r) = 0 := Nat.succ_injective h
      rw [List.map_cons, List.flatten_cons, List.map_cons, List.flatten_cons,
        List.filter_cons_of_pos (by simp [hq]), flatten_filters_cons_zero qs h0]
      exact List.Perm.refl _
    | false =>
      rw [hq] at h
      simp only [Bool.false_eq_true, if_false, Nat.add_zero] at h
      rw [List.map_cons, List.flatten_cons, List.map_cons, List.flatten_cons,
        List.filter_cons_of_neg (by simp [hq])]
      exact (List.Perm.append_left _ (ih h)).trans List.perm_middle

lemma flatten_filters_perm (l : List Row) (ps : List (Row → Bool))
    (h : ∀ a ∈ l, ps.countP (fun p => p a) = 1) :
    ((ps.map (fun p => l.filter p)).flatten).Perm l := by
  induction l with
  | nil => rw [flatten_filters_nil]
  | cons r rs ih =>
    refine (flatten_filters_cons_one ps (h r (List.mem_cons_self r rs))).trans ?_
    exact (ih (fun a ha => h a (List.mem_cons_of_mem r ha))).cons r

lemma flatten_filters_perm_if (l : List Row) (ps : List (Row → Bool))
    (P : Row → Prop) [DecidablePred P]
    (h : ∀ a ∈ l, ps.countP (fun p => p a) = if P a then 1 else 0) :
    ((ps.map (fun p => l.filter p)).flatten).Perm
      (l.filter (fun a => decide (P a))) := by
  induction l with
  | nil => rw [flatten_filters_nil]; exact List.Perm.refl _
  | cons r rs ih =>
    have hr := h r (List.mem_cons_self r rs)
    have ih2 := ih (fun a ha => h a (List.mem_cons_of_mem r ha))
    by_cases hg : P r
    · rw [if_pos hg] at hr
      refine (flatten_filters_cons_one ps hr).trans ?_
      rw [List.filter_cons_of_pos (by simp [hg])]
      exact ih2.cons r
    · rw [if_neg hg] at hr
      rw [flatten_filters_cons_zero ps hr,
        List.filter_cons_of_neg (by simp [hg])]
      exact ih2

lemma bucketLenSum_eq_flatten_length (split : List (String × List String)) :
    bucketLenSum split = ((split.map Prod.snd).flatten).length := by
  rw [List.length_flatten, List.map_map]
  rfl

/-- Core partition fact, with no hypotheses: for every table, attribute and
mode, the concatenation of all buckets is a permutation of the stems of the
coverable rows (integer attribute cell and partition code in {0, 1, 2}). -/
lemma split_flatten_perm_filter (t : Table) (attr : String) (sv : Bool) :
    (((prepare_image_split t attr sv).map Prod.snd).flatten).Perm
      ((t.rows.filter (fun r => decide (goodRow attr r))).map Row.stem) := by
  have h0 := prepare_single_split_eq_filter t attr "train" 0 rfl
  have h1 := prepare_single_split_eq_filter t attr "val" 1 rfl
  have h2 := prepare_single_split_eq_filter t attr "test" 2 rfl
  cases sv with
  | true =>
    have hp := (flatten_filters_perm_if t.rows (sixMasks attr) (goodRow attr)
      (fun a _ => countP_sixMasks attr a)).map Row.stem
    have he : ((prepare_image_split t attr true).map Prod.snd).flatten
        = (((sixMasks attr).map (fun p => t.rows.filter p)).flatten).map
            Row.stem := by
      simp [prepare_image_split, h0, h1, h2, sixMasks, List.map_flatten,
        List.append_assoc]
    rw [he]
    exact hp
  | false =>
    have hp := (flatten_filters_perm_if t.rows (mergedMasks attr) (goodRow attr)
      (fun a _ => countP_mergedMasks attr a)).map Row.stem
    have he : ((prepare_image_split t attr false).map Prod.snd).flatten
        = (((mergedMasks attr).map (fun p => t.rows.filter p)).flatten).map
            Row.stem := by
      simp [prepare_image_split, h0, h1, h2, mergedMasks, List.map_flatten,
        List.append_assoc]
    rw [he]
    exact hp

lemma filter_good_eq_self (t : Table) (attr : String)
    (hattr : ∀ r ∈ t.rows, (attrVal r attr).isSome)
    (hpart : ∀ r ∈ t.rows, r.part = 0 ∨ r.part = 1 ∨ r.part = 2) :
    t.rows.filter (fun r => decide (goodRow attr r)) = t.rows :=
  List.filter_eq_self.mpr (fun a ha => by
    simp only [decide_eq_true_eq, goodRow]
    exact ⟨hattr a ha, hpart a ha⟩)

/-! ### C2: the buckets partition the rows -/

/-- Claim C2 (amended): for a table whose chosen attribute column holds an
integer in every row and whose partition codes all lie in {0, 1, 2}, the
buckets of `prepare_image_split` partition the rows exactly, regardless of
`separate_val`: the bucket sizes sum to the row count, the concatenation of
all buckets is a permutation of the row stems (no row omitted or duplicated),
and, when the stems are distinct, no stem appears in two buckets. -/
theorem claim_C2_amended (t : Table) (attr : String) (separate_val : Bool)
    (hattr : ∀ r ∈ t.rows, (attrVal r attr).isSome)
    (hpart : ∀ r ∈ t.rows, r.part = 0 ∨ r.part = 1 ∨ r.part = 2) :
    bucketLenSum (prepare_image_split t attr separate_val) = t.rows.length
    ∧ (((prepare_image_split t attr separate_val).map Prod.snd).flatten).Perm
        (t.rows.map Row.stem)
    ∧ ((t.rows.map Row.stem).Nodup →
        ((prepare_image_split t attr separate_val).map Prod.snd).Pairwise
          (fun l1 l2 => ∀ s ∈ l1, s ∉ l2)) := by
  have hperm := split_flatten_perm_filter t attr separate_val
  rw [filter_good_eq_self t attr hattr hpart] at hperm
  refine ⟨?_, hperm, ?_⟩
  · rw [bucketLenSum_eq_flatten_length, hperm.length_eq, List.length_map]
  · intro hnd
    have hfl := (hperm.nodup_iff).mpr hnd
    exact (List.nodup_flatten.mp hfl).2.imp (fun hd => fun s hs hs2 => hd hs hs2)

/-- A one-row table with a valid attribute column but partition code 3. -/
def cexTableC2 : Table :=
  ⟨[PART_COL, "Male"], [⟨"x.jpg", 3, [("Male", some 1)]⟩]⟩

/-- Counterexample to C2 as stated: on a table whose attribute is valid
(validate_attr accepts it) but whose single row carries partition code 3, all
buckets are empty, so the bucket sizes sum to 0 while the table has 1 row -
the buckets do not partition the rows of arbitrary input tables. -/
theorem claim_C2_counterexample :
    validate_attr cexTableC2 "Male" = .ok ()
    ∧ bucketLenSum (prepare_image_split cexTableC2 "Male" false) = 0
    ∧ cexTableC2.rows.length = 1 :=
  ⟨rfl, rfl, rfl⟩

/-- Witness for the amended C2 at the concrete 3-row table. -/
theorem claim_C2_witness :
    (∀ r ∈ exTable3.rows, (attrVal r "Attr").isSome)
    ∧ (∀ r ∈ exTable3.rows, r.part = 0 ∨ r.part = 1 ∨ r.part = 2)
    ∧ bucketLenSum (prepare_image_split exTable3 "Attr" false)
        = exTable3.rows.length :=
  ⟨by decide, by decide,
   (claim_C2_amended exTable3 "Attr" false (by decide) (by decide)).1⟩

/-! ### C10: rows with an invalid partition code fall in no bucket -/

/-- Claim C10: a metadata row whose partition code is not 0, 1 or 2 matches
none of the train/val/test masks, so (when stems are distinct) its stem is in
no bucket; for a table containing such a row the bucket sizes sum to strictly
less than the row count and `validate_image_split` raises; and the buckets
cover every row exactly when all partition codes lie in {0, 1, 2}. -/
theorem claim_C10 (t : Table) (attr : String) (separate_val : Bool)
    (hattr : ∀ r ∈ t.rows, (attrVal r attr).isSome) :
    (∀ r ∈ t.rows, ¬(r.part = 0 ∨ r.part = 1 ∨ r.part = 2) →
      (t.rows.map Row.stem).Nodup →
      ∀ b ∈ prepare_image_split t attr separate_val, r.stem ∉ b.2)
    ∧ ((∃ r ∈ t.rows, ¬(r.part = 0 ∨ r.part = 1 ∨ r.part = 2)) →
      bucketLenSum (prepare_image_split t attr separate_val) < t.rows.length
      ∧ validate_image_split t (prepare_image_split t attr separate_val)
          = .error .splitCountMismatch)
    ∧ ((∀ r ∈ t.rows, r.part = 0 ∨ r.part = 1 ∨ r.part = 2) →
      bucketLenSum (prepare_image_split t attr separate_val)
        = t.rows.length) := by
  have hperm := split_flatten_perm_filter t attr separate_val
  have hsum : bucketLenSum (prepare_image_split t attr separate_val)
      = (t.rows.filter (fun r => decide (goodRow attr r))).length := by
    rw [bucketLenSum_eq_flatten_length, hperm.length_eq, List.length_map]
  refine ⟨?_, ?_, ?_⟩
  · intro r hr hbad hnd b hb hmem
    have hfl : r.stem
        ∈ ((prepare_image_split t attr separate_val).map Prod.snd).flatten :=
      List.mem_flatten.mpr ⟨b.2, List.mem_map_of_mem Prod.snd hb, hmem⟩
    rw [hperm.mem_iff] at hfl
    obtain ⟨r2, hr2, hst⟩ := List.mem_map.mp hfl
    have hr2mem : r2 ∈ t.rows := List.mem_of_mem_filter hr2
    have hg : goodRow attr r2 := by
      have := List.of_mem_filter hr2
      simpa using this
    rw [List.inj_on_of_nodup_map hnd hr2mem hr hst] at hg
    exact hbad hg.2
  · rintro ⟨r, hr, hbad⟩
    have hlt : (t.rows.filter (fun r => decide (goodRow attr r))).length
        < t.rows.length := by
      rw [List.length_filter_lt_length_iff_exists]
      exact ⟨r, hr, by simp [goodRow, hbad]⟩
    have h2 : bucketLenSum (prepare_image_split t attr separate_val)
        < t.rows.length := hsum ▸ hlt
    refine ⟨h2, ?_⟩
    have hne : t.rows.length
        ≠ bucketLenSum (prepare_image_split t attr separate_val) :=
      (Nat.ne_of_lt h2).symm
    simp only [bucketLenSum] at hne
    simp only [validate_image_split]
    rw [if_neg hne]
  · intro hall
    rw [hsum, filter_good_eq_self t attr hattr hall]

/-- A table mixing a good train row with a partition-code-7 row. -/
def exTableC10 : Table :=
  ⟨[PART_COL, "Attr"],
   [⟨"a.jpg", 0, [("Attr", some 1)]⟩,
    ⟨"b.jpg", 7, [("Attr", some 1)]⟩]⟩

/-- Witness for C10: on the table with partition codes {0, 7} the buckets sum
to 1 < 2 and the split validation raises. -/
theorem claim_C10_witness :
    (∀ r ∈ exTableC10.rows, (attrVal r "Attr").isSome)
    ∧ (∃ r ∈ exTableC10.rows, ¬(r.part = 0 ∨ r.part = 1 ∨ r.part = 2))
    ∧ (bucketLenSum (prepare_image_split exTableC10 "Attr" false)
          < exTableC10.rows.length
        ∧ validate_image_split exTableC10
            (prepare_image_split exTableC10 "Attr" false)
          = .error .splitCountMismatch) :=
  ⟨by decide, by decide,
   (claim_C10 exTableC10 "Attr" false (by decide)).2.1 (by decide)⟩

/-! ### C7: validate_images -/

lemma validate_images_loop_ok_iff (specs : Table) (images : List String) :
    validate_images_loop specs images = .ok ()
      ↔ ∀ img ∈ images, imageOK specs img = true := by
  induction images with
  | nil => simp [validate_images_loop]
  | cons img rest ih =>
    simp only [validate_images_loop]
    by_cases h1 : (splitext img).2 ≠ FILE_EXT
    · rw [if_pos h1]
      simp only [List.forall_mem_cons]
      constructor
      · intro h
        exact absurd h (by simp)
      · rintro ⟨hok, -⟩
        rw [imageOK] at hok
        simp only [Bool.and_eq_true, beq_iff_eq] at hok
        exact absurd hok.1 h1
    · rw [if_neg h1]
      push_neg at h1
      by_cases h2 : specs.index.contains ((splitext img).1 ++ INDEX_EXT) = true
      · rw [if_pos h2]
        rw [List.elem_iff] at h2
        simp only [List.forall_mem_cons, ih, imageOK, Bool.and_eq_true,
          beq_iff_eq, List.elem_iff]
        simp [h1, h2]
      · rw [if_neg h2]
        simp only [List.forall_mem_cons]
        constructor
        · intro h
          exact absurd h (by simp)
        · rintro ⟨hok, -⟩
          rw [imageOK] at hok
          simp only [Bool.and_eq_true, beq_iff_eq] at hok
          exact absurd hok.2 h2

lemma validate_images_loop_err (specs : Table) (images : List String)
    (e : CelebaError) (h : validate_images_loop specs images = .error e) :
    (∃ img ∈ images, (splitext img).2 ≠ FILE_EXT
      ∧ e = .wrongExtension img (splitext img).2)
    ∨ (∃ img ∈ images, (splitext img).2 = FILE_EXT
      ∧ ((splitext img).1 ++ INDEX_EXT) ∉ specs.index
      ∧ e = .missingEntry img ((splitext img).1 ++ INDEX_EXT)) := by
  induction images with
  | nil => simp [validate_images_loop] at h
  | cons img rest ih =>
    simp only [validate_images_loop] at h
    by_cases h1 : (splitext img).2 ≠ FILE_EXT
    · rw [if_pos h1] at h
      exact Or.inl ⟨img, List.mem_cons_self img rest, h1,
        (Except.error.inj h).symm⟩
    · rw [if_neg h1] at h
      push_neg at h1
      by_cases h2 : specs.index.contains ((splitext img).1 ++ INDEX_EXT) = true
      · rw [if_pos h2] at h
        rcases ih h with ⟨i, hi, hx⟩ | ⟨i, hi, hx⟩
        · exact Or.inl ⟨i, List.mem_cons_of_mem img hi, hx⟩
        · exact Or.inr ⟨i, List.mem_cons_of_mem img hi, hx⟩
      · rw [if_neg h2] at h
        refine Or.inr ⟨img, List.mem_cons_self img rest, h1, ?_,
          (Except.error.inj h).symm⟩
        rw [List.elem_iff] at h2
        exact h2

/-- Claim C7: `validate_images(file_list, table)` fails with the
count-mismatch error when the sizes differ; with sizes equal it succeeds
exactly when every file has the expected image extension and its stem with
the metadata extension substituted is in the table index; and any error it
returns is a count-mismatch, a wrong-extension error on an offending file, or
a missing-entry error on a file whose substituted stem is absent. -/
theorem claim_C7 (images : List String) (specs : Table) :
    (validate_images images specs = .ok ()
      ↔ images.length = specs.rows.length
        ∧ ∀ img ∈ images, (splitext img).2 = FILE_EXT
            ∧ ((splitext img).1 ++ INDEX_EXT) ∈ specs.index)
    ∧ (images.length ≠ specs.rows.length →
        validate_images images specs
          = .error (.countMismatch images.length specs.rows.length))
    ∧ (∀ e, validate_images images specs = .error e →
        e = .countMismatch images.length specs.rows.length
        ∨ (∃ img ∈ images, (splitext img).2 ≠ FILE_EXT
            ∧ e = .wrongExtension img (splitext img).2)
        ∨ (∃ img ∈ images, (splitext img).2 = FILE_EXT
            ∧ ((splitext img).1 ++ INDEX_EXT) ∉ specs.index
            ∧ e = .missingEntry img ((splitext img).1 ++ INDEX_EXT))) := by
  refine ⟨?_, ?_, ?_⟩
  · unfold validate_images
    by_cases hn : images.length ≠ specs.rows.length
    · rw [if_pos hn]
      constructor
      · intro h
        exact absurd h (by simp)
      · rintro ⟨hlen, -⟩
        exact absurd hlen hn
    · rw [if_neg hn]
      push_neg at hn
      rw [validate_images_loop_ok_iff]
      constructor
      · intro hall
        refine ⟨hn, fun img hi => ?_⟩
        have := hall img hi
        rw [imageOK] at this
        simp only [Bool.and_eq_true, beq_iff_eq, List.elem_iff] at this
        exact this
      · rintro ⟨-, hall⟩
        intro img hi
        rw [imageOK]
        simp only [Bool.and_eq_true, beq_iff_eq, List.elem_iff]
        exact hall img hi
  · intro hn
    unfold validate_images
    rw [if_pos hn]
  · intro e he
    unfold validate_images at he
    by_cases hn : images.length ≠ specs.rows.length
    · rw [if_pos hn] at he
      exact Or.inl (Except.error.inj he).symm
    · rw [if_neg hn] at he
      exact Or.inr (validate_images_loop_err specs images e he)

/-- A one-row table matching the single image 000001.png. -/
def exTableC7 : Table :=
  ⟨[PART_COL, "Male"], [⟨"000001.jpg", 0, [("Male", some 1)]⟩]⟩

/-- Witness for C7: a listing of one well-formed png against a one-row table
passes validation. -/
theorem claim_C7_witness :
    validate_images ["000001.png"] exTableC7 = .ok () :=
  (claim_C7 ["000001.png"] exTableC7).1.mpr ⟨by decide, by decide⟩

/-! ### C8: validate_attr -/

/-- Claim C8: on a table carrying the reserved partition column,
`validate_attr` fails exactly when the requested name is not among the
columns with the partition column excluded, and the invalid-argument error
enumerates precisely the columns other than the partition column. -/
theorem claim_C8 (specs : Table) (attr : String)
    (h : PART_COL ∈ specs.columns) :
    (validate_attr specs attr = .ok ()
      ↔ attr ∈ specs.columns ∧ attr ≠ PART_COL)
    ∧ (¬(attr ∈ specs.columns ∧ attr ≠ PART_COL) →
        validate_attr specs attr
          = .error (.unknownAttr attr
              (specs.columns.filter (fun c => c ≠ PART_COL))))
    ∧ (∀ a lst, validate_attr specs attr = .error (.unknownAttr a lst) →
        a = attr ∧ ∀ c, c ∈ lst ↔ c ∈ specs.columns ∧ c ≠ PART_COL) := by
  unfold validate_attr
  rw [if_pos h]
  by_cases ha : attr ∈ specs.columns.filter (fun c => decide (c ≠ PART_COL))
  · rw [if_pos ha]
    rw [List.mem_filter, decide_eq_true_eq] at ha
    refine ⟨by simpa using ha, fun hc => absurd ha hc, ?_⟩
    intro a lst he
    exact absurd he (by simp)
  · rw [if_neg ha]
    rw [List.mem_filter, decide_eq_true_eq] at ha
    refine ⟨by simpa using ha, fun _ => rfl, ?_⟩
    intro a lst he
    have h1 : a = attr ∧ lst = specs.columns.filter (fun c => decide (c ≠ PART_COL)) := by
      have := Except.error.inj he
      exact ⟨(CelebaError.unknownAttr.inj this.symm).1,
        (CelebaError.unknownAttr.inj this.symm).2⟩
    refine ⟨h1.1, fun c => ?_⟩
    rw [h1.2, List.mem_filter, decide_eq_true_eq]

/-- A joined-table shape for the C8 witness. -/
def exTableC8 : Table := ⟨[PART_COL, "Male", "Eyeglasses"], []⟩

/-- Witness for C8: a name missing from the columns is rejected with the
error listing exactly the non-partition columns. -/
theorem claim_C8_witness :
    PART_COL ∈ exTableC8.columns
    ∧ validate_attr exTableC8 "Bogus"
        = .error (.unknownAttr "Bogus"
            (exTableC8.columns.filter (fun c => c ≠ PART_COL))) :=
  ⟨by decide, (claim_C8 exTableC8 "Bogus" (by decide)).2.1 (by decide)⟩

/-! ### C4: the metadata join -/

lemma lookup_eq_none_of_not_mem {l : List (String × List Int)} {k : String}
    (h : k ∉ l.map Prod.fst) : l.lookup k = none := by
  induction l with
  | nil => rfl
  | cons x xs ih =>
    simp only [List.map_cons, List.mem_cons, not_or] at h
    have hk : (k == x.1) = false := by
      simp only [beq_eq_false_iff_ne, ne_eq]
      exact h.1
    cases x with
    | mk k1 v1 =>
      simp only [List.lookup]
      rw [hk]
      exact ih h.2

lemma joinRow_stem (dfAttrs : AttrFrame) (stem : String) (p : Int) :
    (joinRow dfAttrs stem p).stem = stem := by
  unfold joinRow
  cases dfAttrs.rows.lookup stem <;> rfl

/-- Claim C4 (amended): the loader does not fail when the two key sets cannot
be aligned: `df_partition.join(df_attrs)` is a left join, producing exactly
one row per partition-table entry in the partition-table order (an attribute
stem missing from the partition table is dropped), and a partition stem
absent from the attribute table receives a missing (NaN) cell in every
attribute column. -/
theorem claim_C4_amended (dfAttrs : AttrFrame) (dfPart : List (String × Int)) :
    (load_celeba_specs dfAttrs dfPart).rows.length = dfPart.length
    ∧ (load_celeba_specs dfAttrs dfPart).rows.map Row.stem
        = dfPart.map Prod.fst
    ∧ ∀ r ∈ (load_celeba_specs dfAttrs dfPart).rows,
        r.stem ∉ dfAttrs.rows.map Prod.fst →
        ∀ cell ∈ r.attrs, cell.2 = none := by
  refine ⟨by simp [load_celeba_specs], ?_, ?_⟩
  · simp only [load_celeba_specs, List.map_map]
    exact List.map_eq_map_iff.mpr
      (fun sp _ => joinRow_stem dfAttrs sp.1 sp.2)
  · intro r hr hnot cell hc
    simp only [load_celeba_specs, List.mem_map] at hr
    obtain ⟨sp, hsp, hjr⟩ := hr
    rw [← hjr] at hnot hc
    rw [joinRow_stem] at hnot
    unfold joinRow at hc
    rw [lookup_eq_none_of_not_mem hnot] at hc
    simp only [List.mem_map] at hc
    obtain ⟨c, hcmem, hcell⟩ := hc
    rw [← hcell]

/-- An attribute frame and a partition list whose key sets differ: `b.jpg`
has a partition entry but no attribute entry. -/
def cexAttrsC4 : AttrFrame := ⟨["Male"], [("a.jpg", [1])]⟩

/-- Partition entries for the C4 counterexample. -/
def cexPartC4 : List (String × Int) := [("a.jpg", 0), ("b.jpg", 1)]

/-- Counterexample to C4 as stated: on key sets that cannot be aligned the
loader does not fail with a data-format error - it returns the left-joined
table, giving the unmatched stem a NaN attribute cell. -/
theorem claim_C4_counterexample :
    ("b.jpg" ∈ cexPartC4.map Prod.fst
      ∧ "b.jpg" ∉ cexAttrsC4.rows.map Prod.fst)
    ∧ load_celeba_specs cexAttrsC4 cexPartC4
        = ⟨[PART_COL, "Male"],
           [⟨"a.jpg", 0, [("Male", some 1)]⟩,
            ⟨"b.jpg", 1, [("Male", none)]⟩]⟩ :=
  ⟨by decide, rfl⟩

/-- Witness for the amended C4: the unmatched row is present, with its only
attribute cell missing. -/
theorem claim_C4_witness :
    (⟨"b.jpg", 1, [("Male", none)]⟩ : Row)
        ∈ (load_celeba_specs cexAttrsC4 cexPartC4).rows
    ∧ ("Male", (none : Option Int)).2 = none :=
  ⟨by decide,
   (claim_C4_amended cexAttrsC4 cexPartC4).2.2
     ⟨"b.jpg", 1, [("Male", none)]⟩ (by decide) (by decide)
     ("Male", none) (by decide)⟩

/-! ### C3 and C9: the main run and the filesystem -/

lemma makedirs_self_mem (fs : FS) (p : String) : p ∈ makedirs fs p := by
  unfold makedirs
  by_cases h : pathExists fs p = true
  · rw [if_pos h]
    rw [pathExists, List.elem_iff] at h
    exact h
  · rw [if_neg h]
    exact List.mem_cons_self p fs

lemma mkdirAll_mem (outdir : String) (names : List String) (fs : FS)
    (x : String) (hx : x ∈ fs) : x ∈ (mkdirAll outdir names fs).1 := by
  induction names generalizing fs with
  | nil => exact hx
  | cons n ns ih =>
    simp only [mkdirAll]
    by_cases h : pathExists fs (joinPath outdir n) = true
    · rw [if_pos h]
      exact hx
    · rw [if_neg h]
      exact ih _ (List.mem_cons_of_mem _ hx)

lemma mkdirAll_err_shape (outdir : String) (names : List String) (fs : FS)
    (e : CelebaError) (h : (mkdirAll outdir names fs).2 = some e) :
    ∃ p, e = .mkdirErr p := by
  induction names generalizing fs with
  | nil => simp [mkdirAll] at h
  | cons n ns ih =>
    simp only [mkdirAll] at h
    by_cases hp : pathExists fs (joinPath outdir n) = true
    · rw [if_pos hp] at h
      exact ⟨joinPath outdir n, (Option.some.inj h).symm⟩
    · rw [if_neg hp] at h
      exact ih _ h

lemma copyBucket_mem (dstRoot : String) (files : List String) (fs : FS)
    (x : String) (hx : x ∈ fs) : x ∈ copyBucket dstRoot files fs := by
  induction files generalizing fs with
  | nil => exact hx
  | cons f rest ih =>
    simp only [copyBucket]
    exact ih _ (List.mem_cons_of_mem _ hx)

lemma split_images_mem (outdir : String)
    (split : List (String × List String)) (fs : FS)
    (x : String) (hx : x ∈ fs) : x ∈ split_images outdir split fs := by
  induction split generalizing fs with
  | nil => exact hx
  | cons b rest ih =>
    cases b with
    | mk name files =>
      simp only [split_images]
      exact ih _ (copyBucket_mem _ files fs x hx)

lemma prepare_outdir_mem (fs : FS) (outdir : String) (names : List String) :
    outdir ∈ (prepare_outdir fs outdir names).1 :=
  mkdirAll_mem outdir names _ outdir (makedirs_self_mem fs outdir)

/-- Claim C9: every eager error of the run - the output-directory
precondition and the data-integrity checks (unknown attribute, image
count/extension/index mismatch, split-count mismatch) - aborts the run with
the filesystem exactly as it was: no directory created, no file copied. -/
theorem claim_C9 (env : Env) (fs fs2 : FS) (e : CelebaError)
    (h : mainRun env fs = (fs2, .error e)) (he : e.isEager = true) :
    fs2 = fs := by
  simp only [mainRun] at h
  by_cases h1 : pathExists fs env.outdir = true
  · rw [if_pos h1] at h
    exact ((Prod.mk.injEq _ _ _ _).mp h).1.symm
  · rw [if_neg h1] at h
    cases hva : validate_attr (load_celeba_specs env.dfAttrs env.dfPart)
        env.attr with
    | error e1 =>
      rw [hva] at h
      exact ((Prod.mk.injEq _ _ _ _).mp h).1.symm
    | ok u =>
      cases u
      rw [hva] at h
      cases hvi : validate_images
          (collect_celeba_images env.listing)
          (load_celeba_specs env.dfAttrs env.dfPart) with
      | error e2 =>
        rw [hvi] at h
        exact ((Prod.mk.injEq _ _ _ _).mp h).1.symm
      | ok u2 =>
        cases u2
        rw [hvi] at h
        cases hvs : validate_image_split
            (load_celeba_specs env.dfAttrs env.dfPart)
            (prepare_image_split (load_celeba_specs env.dfAttrs env.dfPart)
              env.attr env.separate_val) with
        | error e3 =>
          rw [hvs] at h
          exact ((Prod.mk.injEq _ _ _ _).mp h).1.symm
        | ok u3 =>
          cases u3
          rw [hvs] at h
          rcases hpo : prepare_outdir fs env.outdir
              ((prepare_image_split (load_celeba_specs env.dfAttrs env.dfPart)
                env.attr env.separate_val).map Prod.fst) with ⟨fs1, oe⟩
          rw [hpo] at h
          cases oe with
          | none => simp at h
          | some e4 =>
            have hinj := (Prod.mk.injEq _ _ _ _).mp h
            have hsnd : (prepare_outdir fs env.outdir
                ((prepare_image_split (load_celeba_specs env.dfAttrs env.dfPart)
                  env.attr env.separate_val).map Prod.fst)).2 = some e4 := by
              rw [hpo]
            obtain ⟨p, hp⟩ := mkdirAll_err_shape env.outdir
              ((prepare_image_split (load_celeba_specs env.dfAttrs env.dfPart)
                env.attr env.separate_val).map Prod.fst)
              (makedirs fs env.outdir) e4 hsnd
            rw [← (Except.error.inj hinj.2), hp] at he
            simp [CelebaError.isEager] at he

/-- Claim C3: the run fails with the already-exists error, touching nothing,
whenever the output root exists; hence a first run from a state without the
output root that succeeds creates it, and re-running against the resulting
state fails with the already-exists error and changes nothing. -/
theorem claim_C3 (env : Env) (fs : FS) :
    (pathExists fs env.outdir = true →
      mainRun env fs = (fs, .error (.outdirErr env.outdir)))
    ∧ (∀ fs1, mainRun env fs = (fs1, .ok ()) →
      pathExists fs1 env.outdir = true
      ∧ mainRun env fs1 = (fs1, .error (.outdirErr env.outdir))) := by
  have hguard : ∀ g : FS, pathExists g env.outdir = true →
      mainRun env g = (g, .error (.outdirErr env.outdir)) := by
    intro g hg
    simp only [mainRun]
    rw [if_pos hg]
  refine ⟨hguard fs, ?_⟩
  intro fs1 h
  simp only [mainRun] at h
  by_cases h1 : pathExists fs env.outdir = true
  · rw [if_pos h1] at h
    simp at h
  · rw [if_neg h1] at h
    cases hva : validate_attr (load_celeba_specs env.dfAttrs env.dfPart)
        env.attr with
    | error e1 =>
      rw [hva] at h
      simp at h
    | ok u =>
      cases u
      rw [hva] at h
      cases hvi : validate_images
          (collect_celeba_images env.listing)
          (load_celeba_specs env.dfAttrs env.dfPart) with
      | error e2 =>
        rw [hvi] at h
        simp at h
      | ok u2 =>
        cases u2
        rw [hvi] at h
        cases hvs : validate_image_split
            (load_celeba_specs env.dfAttrs env.dfPart)
            (prepare_image_split (load_celeba_specs env.dfAttrs env.dfPart)
              env.attr env.separate_val) with
        | error e3 =>
          rw [hvs] at h
          simp at h
        | ok u3 =>
          cases u3
          rw [hvs] at h
          rcases hpo : prepare_outdir fs env.outdir
              ((prepare_image_split (load_celeba_specs env.dfAttrs env.dfPart)
                env.attr env.separate_val).map Prod.fst) with ⟨g1, oe⟩
          rw [hpo] at h
          cases oe with
          | some e4 => simp at h
          | none =>
            have hfs1 : fs1 = split_images env.outdir
                (prepare_image_split (load_celeba_specs env.dfAttrs env.dfPart)
                  env.attr env.separate_val) g1 :=
              ((Prod.mk.injEq _ _ _ _).mp h).1.symm
            have hm : env.outdir ∈ fs1 := by
              rw [hfs1]
              refine split_images_mem _ _ _ _ ?_
              have := prepare_outdir_mem fs env.outdir
                ((prepare_image_split
                  (load_celeba_specs env.dfAttrs env.dfPart)
                  env.attr env.separate_val).map Prod.fst)
              rw [hpo] at this
              exact this
            have hpe : pathExists fs1 env.outdir = true := by
              rw [pathExists, List.elem_iff]
              exact hm
            exact ⟨hpe, hguard fs1 hpe⟩

/-- A complete, consistent one-image environment for the C3 witness. -/
def exEnvC3 : Env :=
  { dfAttrs := ⟨["Male"], [("000001.jpg", [1])]⟩
    dfPart := [("000001.jpg", 0)]
    attr := "Male"
    separate_val := false
    listing := ["000001.png"]
    outdir := "out" }

/-- The filesystem produced by a successful first run of `exEnvC3` from an
empty filesystem. -/
def exFS1C3 : FS :=
  ["out/trainA/000001.png", "out/testB", "out/testA", "out/trainB",
   "out/trainA", "out"]

/-- Witness for C3: the first run from an empty filesystem succeeds and
creates the output root; the second run against the resulting state fails
with the already-exists error and leaves the state untouched. -/
theorem claim_C3_witness :
    mainRun exEnvC3 [] = (exFS1C3, .ok ())
    ∧ (pathExists exFS1C3 "out" = true
      ∧ mainRun exEnvC3 exFS1C3 = (exFS1C3, .error (.outdirErr "out"))) :=
  ⟨rfl, (claim_C3 exEnvC3 []).2 exFS1C3 rfl⟩

/-- The C3 environment with an unknown attribute, for the C9 witness. -/
def exEnvC9 : Env :=
  { dfAttrs := ⟨["Male"], [("000001.jpg", [1])]⟩
    dfPart := [("000001.jpg", 0)]
    attr := "Bogus"
    separate_val := false
    listing := ["000001.png"]
    outdir := "out" }

/-- Witness for C9: the unknown-attribute run aborts with the filesystem
exactly as it was. -/
theorem claim_C9_witness :
    (mainRun exEnvC9 ["keep.txt"]
        = (["keep.txt"], .error (.unknownAttr "Bogus" ["Male"]))
      ∧ (CelebaError.unknownAttr "Bogus" ["Male"]).isEager = true)
    ∧ (["keep.txt"] : FS) = ["keep.txt"] :=
  ⟨⟨rfl, rfl⟩,
   claim_C9 exEnvC9 ["keep.txt"] ["keep.txt"]
     (.unknownAttr "Bogus" ["Male"]) rfl rfl⟩

/-- A table with one class-A test row and one class-A val row. -/
def exTableC5 : Table :=
  ⟨[PART_COL, "Attr"],
   [⟨"te1.jpg", 2, [("Attr", some 1)]⟩,
    ⟨"va1.jpg", 1, [("Attr", some 1)]⟩]⟩

/-- Witness for C5: with merged val, `testA` is the test list followed by the
val list, and the val item sits right after the test items. -/
theorem claim_C5_witness :
    (prepare_image_split exTableC5 "Attr" false).lookup "testA"
        = some ["te1.jpg", "va1.jpg"]
    ∧ ((prepare_single_split exTableC5 "Attr" "test").1
        ++ (prepare_single_split exTableC5 "Attr" "val").1)[
          (prepare_single_split exTableC5 "Attr" "test").1.length + 0]?
        = (prepare_single_split exTableC5 "Attr" "val").1[0]? :=
  ⟨((claim_C5 exTableC5 "Attr").1).trans (by decide),
   (claim_C5 exTableC5 "Attr").2.2.2.1 0⟩
